import Mathlib

/-!
Verification of the IndexTracker repository's specification.

The repository ships a Streamlit dashboard (`main.py`) whose download loops,
portfolio arithmetic and Sharpe-ratio computation are embedded below directly
from the source.  The CSV Time-Series Loader (`carica_csv`) described by the
spec lives in a sibling script of the repository that is not present under
`src/`; its model below is therefore built from the spec's §4.1 algorithm,
and each such definition is marked `Modelled from the spec:`.

Text is processed at the character level (structurally recursive functions
over `List Char`) so that every definition evaluates inside the kernel.
-/

namespace IndexTracker

/-! ## Character-level text primitives -/

/-- Strip leading and trailing whitespace from a character sequence. -/
def trimChars (cs : List Char) : List Char :=
  ((cs.dropWhile Char.isWhitespace).reverse.dropWhile Char.isWhitespace).reverse

/-- Split a character sequence on a separator character; mirrors
`str.split(sep)` for a one-character separator (the empty input gives one
empty field). -/
def splitOnChar (sep : Char) : List Char → List (List Char)
  | [] => [[]]
  | c :: cs =>
    let rest := splitOnChar sep cs
    if c == sep then [] :: rest
    else
      match rest with
      | [] => [[c]]
      | r :: rs => (c :: r) :: rs

/-- Whether the first sequence starts with the second. -/
def startsWithChars : List Char → List Char → Bool
  | _, [] => true
  | [], _ :: _ => false
  | c :: cs, p :: ps => c == p && startsWithChars cs ps

/-- Read a non-empty all-digit character sequence as a natural number. -/
def digitsToNat? (cs : List Char) : Option Nat :=
  if cs.isEmpty then none
  else if cs.all Char.isDigit then
    some (cs.foldl (fun n c => n * 10 + (c.toNat - 48)) 0)
  else none

/-! ## Calendar dates and numeric tokens -/

/-- Modelled from the spec: the calendar-date value produced by step 9's
`Date` coercion (`carica_csv` is not under `src/`). -/
structure Date where
  year : Nat
  month : Nat
  day : Nat
deriving DecidableEq, Repr

/-- Sort key of a calendar date: lexicographic year/month/day packed into one `Nat`. -/
def Date.key (d : Date) : Nat := d.year * 10000 + d.month * 100 + d.day

/-- Modelled from the spec: step 9's coercion of a `Date` cell, accepting the
ISO `YYYY-MM-DD` shape used by the spec's scenarios; a token that fails
coercion becomes a missing marker (`none`) rather than raising. -/
def parseDate (s : String) : Option Date :=
  match splitOnChar '-' (trimChars s.data) with
  | [y, m, d] =>
    match digitsToNat? y, digitsToNat? m, digitsToNat? d with
    | some yn, some mn, some dn =>
      if 1 ≤ mn ∧ mn ≤ 12 ∧ 1 ≤ dn ∧ dn ≤ 31 then some ⟨yn, mn, dn⟩ else none
    | _, _, _ => none
  | _ => none

/-- Modelled from the spec: step 9's coercion of a `Price` cell to a number
(optional sign, decimal digits, optional fractional part); a token that fails
coercion becomes a missing marker (`none`) rather than raising. -/
def parsePrice (s : String) : Option ℚ :=
  let t := trimChars s.data
  let sign : ℚ := match t with | '-' :: _ => -1 | _ => 1
  let body : List Char := match t with | '-' :: rest => rest | _ => t
  match splitOnChar '.' body with
  | [w] => (digitsToNat? w).map (fun n => sign * (n : ℚ))
  | [w, f] =>
    match digitsToNat? w, digitsToNat? f with
    | some wn, some fn => some (sign * ((wn : ℚ) + (fn : ℚ) / (10 ^ f.length)))
    | _, _ => none
  | _ => none

/-! ## The normalized table -/

/-- A record of the normalized output table: by construction it always carries
a `Date` and a `Price` value (records missing either were dropped in step 10),
plus the pass-through extra columns. -/
structure Row where
  date : Date
  price : ℚ
  extras : List String
deriving DecidableEq, Repr

/-- The loader's output: column names plus the ordered records. -/
structure Table where
  cols : List String
  rows : List Row
deriving DecidableEq, Repr

/-- Non-decreasing order of records by their `Date`. -/
def rowLE (a b : Row) : Prop := a.date.key ≤ b.date.key

instance : DecidableRel rowLE := fun a b => Nat.decLe a.date.key b.date.key

instance : IsTotal Row rowLE := ⟨fun a b => Nat.le_total a.date.key b.date.key⟩

instance : IsTrans Row rowLE := ⟨fun _ _ _ => Nat.le_trans⟩

/-! ## The loader pipeline (spec §4.1) -/

/-- Modelled from the spec: the sentinel marker of step 2. -/
def sentinelMarker : String := "=== DATI STORICI ==="

/-- Modelled from the spec: step 3's fixed set of known metadata-header labels
(name/ticker/download-date/period/count/performance/price/deviation). -/
def metadataLabels : List String :=
  ["Nome", "Ticker", "Data Download", "Periodo", "Numero",
   "Performance", "Prezzo", "Deviazione"]

/-- Modelled from the spec: step 3's date-like test — entirely numeric after
stripping `-` and `/`, or containing a `/` or `-`. -/
def looksDateLike (tok : List Char) : Bool :=
  let t := trimChars tok
  let stripped := t.filter (fun c => !(c == '-' || c == '/'))
  (!stripped.isEmpty && stripped.all Char.isDigit) ||
    t.any (fun c => c == '/') || t.any (fun c => c == '-')

/-- Modelled from the spec: step 3's heuristic — a non-empty line, not starting
with a known metadata label, containing a comma, whose first comma-delimited
token looks date-like. -/
def isDataLine (line : String) : Bool :=
  !(trimChars line.data).isEmpty &&
  !(metadataLabels.any (fun p => startsWithChars line.data p.data)) &&
  line.data.any (fun c => c == ',') &&
  looksDateLike ((splitOnChar ',' line.data).headD [])

/-- Modelled from the spec: steps 2–3 — the sentinel takes priority and the
data section starts on the line after it; otherwise the first date-like data
line starts the section; `none` selects step 4's header-row fallback. -/
def detectStart (lines : List String) : Option Nat :=
  match lines.findIdx? (fun l => trimChars l.data == sentinelMarker.data) with
  | some i => some (i + 1)
  | none => lines.findIdx? isDataLine

/-- Modelled from the spec: step 6's label normalization — trim surrounding
whitespace and remove embedded newline/carriage-return characters. -/
def normalizeLabel (s : String) : String :=
  String.mk (trimChars (s.data.filter (fun c => !(c == '\n' || c == '\r'))))

/-- Modelled from the spec: step 8's positional column naming for the
headerless parse — first two columns `Date`, `Price`; with four or more
columns the next two `Performance_PCT`, `Performance_ABS`; any further
column gets a generic positional name. -/
def assignNames (n : Nat) : List String :=
  (List.range n).map (fun i =>
    if i = 0 then "Date"
    else if i = 1 then "Price"
    else if 4 ≤ n && i = 2 then "Performance_PCT"
    else if 4 ≤ n && i = 3 then "Performance_ABS"
    else "Col_" ++ toString i)

/-- Modelled from the spec: steps 9–10 on one record — coerce the first field
as `Date`, the second as `Price`, keep the rest as pass-through; a record
missing either coercion is dropped (`none`). -/
def rowOfLine (line : String) : Option Row :=
  let fields := splitOnChar ',' line.data
  match parseDate (String.mk (fields.getD 0 [])),
        parsePrice (String.mk (fields.getD 1 [])) with
  | some d, some p => some ⟨d, p, (fields.drop 2).map String.mk⟩
  | _, _ => none

/-- A line is blank when it is empty after trimming. -/
def isBlank (line : String) : Bool := (trimChars line.data).isEmpty

/-- Modelled from the spec: steps 2–10 — locate the data section, drop blank
lines, parse it headerless (or fall back to a header-row table, force-renaming
its first two columns), normalize labels, and coerce/clean the records. -/
def parseStage (lines : List String) : Except String (List String × List Row) :=
  match detectStart lines with
  | some s =>
    match (lines.drop s).filter (fun l => !isBlank l) with
    | [] => .error "no data found"
    | first :: others =>
      let ncols := (splitOnChar ',' first.data).length
      if ncols < 2 then .error "needs at least 2 columns"
      else .ok (assignNames ncols, (first :: others).filterMap rowOfLine)
  | none =>
    match lines.filter (fun l => !isBlank l) with
    | [] => .error "load error: no columns to parse from file"
    | header :: rest =>
      let names := ((splitOnChar ',' header.data).map
        (fun cs => normalizeLabel (String.mk cs)))
      if names.length < 2 then .error "needs at least 2 columns"
      else .ok ("Date" :: "Price" :: names.drop 2, rest.filterMap rowOfLine)

/-- Modelled from the spec: steps 11–12 — sort ascending by `Date` and reject
with `"fewer than 2 valid rows"` when fewer than two records survived. -/
def loadE (lines : List String) : Except String Table :=
  match parseStage lines with
  | .error e => .error e
  | .ok (names, rows) =>
    if rows.length < 2 then .error "fewer than 2 valid rows"
    else .ok ⟨names, List.insertionSort rowLE rows⟩

/-- Modelled from the spec: the uploaded byte buffer, abstracted by whether it
decodes as UTF-8 into a line sequence (step 1) or fails to decode. -/
inductive Buffer where
  | text (lines : List String)
  | undecodable (msg : String)
deriving DecidableEq, Repr

/-- Modelled from the spec: the public contract
`load(buffer) -> (Table | None, ErrorMessage | None)`; step 13 turns any
decode failure into the `"load error: <message>"` string instead of raising. -/
def carica_csv : Buffer → Option Table × Option String
  | .undecodable msg => (none, some ("load error: " ++ msg))
  | .text lines =>
    match loadE lines with
    | .ok t => (some t, none)
    | .error e => (none, some e)

instance {ε α : Type} [DecidableEq ε] [DecidableEq α] :
    DecidableEq (Except ε α) := fun x y =>
  match x, y with
  | .ok a, .ok b =>
    if h : a = b then isTrue (by rw [h])
    else isFalse (by intro he; cases he; exact h rfl)
  | .error a, .error b =>
    if h : a = b then isTrue (by rw [h])
    else isFalse (by intro he; cases he; exact h rfl)
  | .ok _, .error _ => isFalse (by intro he; cases he)
  | .error _, .ok _ => isFalse (by intro he; cases he)

/-- The cleaned records a buffer yields before the final row-count gate:
`.ok (names, rows)` exactly when the pipeline reaches step 11 with those
column names and surviving records. -/
def parsedOf : Buffer → Except String (List String × List Row)
  | .undecodable msg => .error ("load error: " ++ msg)
  | .text lines => parseStage lines

/-! ## The batch download loops (`src/main.py`) -/

/-- Outcome of one `yf.download(ticker, ...)` call as the loops observe it:
a frame with a `Close` column, an empty or `Close`-less frame, or a raised
exception carrying a message. -/
inductive Download (α : Type) where
  | success (data : α)
  | nodata
  | failure (msg : String)

/-- The portfolio download loop (`main.py` 320–332, same shape as the
dashboard loop at 140–152): each index is fetched inside its own
`try`/`except`; a success is stored, an empty result appends
`"<indice>: Nessun dato disponibile"` and an exception appends
`"<indice>: <message>"` to the error list, and the loop continues. -/
def downloadLoop {α : Type} (fetch : String → Download α) :
    List String → List (String × α) × List String
  | [] => ([], [])
  | item :: rest =>
    let tail := downloadLoop fetch rest
    match fetch item with
    | .success d => ((item, d) :: tail.1, tail.2)
    | .nodata => (tail.1, (item ++ ": Nessun dato disponibile") :: tail.2)
    | .failure msg => (tail.1, (item ++ ": " ++ msg) :: tail.2)

/-- The performance-analysis download loop (`main.py` 469–478,
`dati_analisi`): each fetch is wrapped in `try` with a bare `except: pass`,
so a failing or empty index is skipped and its error is recorded nowhere. -/
def analisiLoop {α : Type} (fetch : String → Download α) :
    List String → List (String × α)
  | [] => []
  | item :: rest =>
    match fetch item with
    | .success d => (item, d) :: analisiLoop fetch rest
    | _ => analisiLoop fetch rest

/-! ## Portfolio arithmetic (`src/main.py` 287–352), over exact rationals -/

/-- Base-100 normalization of one price column (`main.py` 346):
`df_norm = df_portfolio / df_portfolio.iloc[0] * 100`. -/
def normCol (c : List ℚ) : List ℚ :=
  match c with
  | [] => []
  | x :: _ => c.map (fun v => v / x * 100)

/-- Elementwise sum of two aligned series. -/
def addSeries (a b : List ℚ) : List ℚ := List.zipWith (· + ·) a b

/-- Weighted sum of the normalized columns (`main.py` 349):
`portfolio_value = sum(df_norm[indice] * pesi[indice] for indice in ...)`. -/
def portfolio_value (cols : List (List ℚ)) (ws : List ℚ) : List ℚ :=
  (List.zip (cols.map normCol) ws).foldr
    (fun cw acc => addSeries (cw.1.map (fun v => v * cw.2)) acc)
    (List.replicate ((cols.headD []).length) 0)

/-- Portfolio value in euro (`main.py` 352):
`portfolio_euro = portfolio_value * (investimento / 100)`. -/
def portfolio_euro (cols : List (List ℚ)) (ws : List ℚ) (investimento : ℚ) :
    List ℚ :=
  (portfolio_value cols ws).map (fun v => v * (investimento / 100))

/-- Fractional weights from the integer slider percentages (`main.py` 296):
`pesi[indice] = peso / 100`. -/
def pesiOf (pesos : List ℕ) : List ℚ :=
  pesos.map (fun p : ℕ => (p : ℚ) / 100)

/-! ## Sharpe-ratio computation (`src/main.py` 506–518), over the reals -/

noncomputable section

/-- Mean of a returns series (`ret.mean()`; the empty series yields `0`
because `0 / 0 = 0` in Lean's reals). -/
def media (ret : List ℝ) : ℝ := ret.sum / ret.length

/-- Annualized mean return in percent (`main.py` 509):
`rendimento_medio = ret.mean() * 252 * 100`. -/
def rendimento_medio (ret : List ℝ) : ℝ := media ret * 252 * 100

/-- Sample standard deviation of a returns series (`ret.std()`, pandas
default `ddof=1`). -/
def deviazione (ret : List ℝ) : ℝ :=
  Real.sqrt ((ret.map (fun x => (x - media ret) ^ 2)).sum / ((ret.length : ℝ) - 1))

/-- Annualized volatility in percent (`main.py` 510):
`volatilita = ret.std() * np.sqrt(252) * 100`. -/
def volatilita (ret : List ℝ) : ℝ := deviazione ret * Real.sqrt 252 * 100

/-- Sharpe ratio (`main.py` 511):
`sharpe = rendimento_medio / volatilita if volatilita != 0 else 0`. -/
def sharpe (ret : List ℝ) : ℝ :=
  if volatilita ret ≠ 0 then rendimento_medio ret / volatilita ret else 0

end

/-! ## Helper lemmas -/

/-- `assignNames` produces exactly one name per column. -/
theorem length_assignNames (n : Nat) : (assignNames n).length = n := by
  simp [assignNames]

/-- Any successful `loadE` output is the ascending sort of a cleaned record
list that survived the two-row gate. -/
theorem loadE_ok_shape (lines : List String) (t : Table)
    (h : loadE lines = .ok t) :
    ∃ names rows, parseStage lines = .ok (names, rows) ∧ 2 ≤ rows.length ∧
      t = ⟨names, List.insertionSort rowLE rows⟩ := by
  unfold loadE at h
  cases hp : parseStage lines with
  | error e => rw [hp] at h; cases h
  | ok nr =>
    obtain ⟨names, rows⟩ := nr
    rw [hp] at h
    replace h : (if rows.length < 2 then (.error "fewer than 2 valid rows" : Except String Table)
        else .ok ⟨names, List.insertionSort rowLE rows⟩) = .ok t := h
    by_cases hl : rows.length < 2
    · rw [if_pos hl] at h; cases h
    · rw [if_neg hl] at h
      cases h
      exact ⟨names, rows, rfl, Nat.le_of_not_lt hl, rfl⟩

/-! ## The claims -/

/-- C1: `load` takes a buffer and returns a pair `(Table | None,
ErrorMessage | None)` in which exactly one slot is populated; every failure
is recovered inside the loader and returned as data (the model is a total
function into that pair type, so no exception escapes). -/
theorem load_exactly_one_slot (buf : Buffer) :
    ((carica_csv buf).1.isSome ∧ (carica_csv buf).2 = none) ∨
    ((carica_csv buf).1 = none ∧ (carica_csv buf).2.isSome) := by
  cases buf with
  | undecodable msg => exact Or.inr ⟨rfl, rfl⟩
  | text lines =>
    cases h : loadE lines with
    | ok t => exact Or.inl (by simp [carica_csv, h])
    | error e => exact Or.inr (by simp [carica_csv, h])

/-- C2: every table returned by a successful `load` has its records in
non-decreasing order by `Date` and contains at least two records; a record
missing `Date` or `Price` cannot occur since `Row` carries both by
construction (step 10 dropped the rest). -/
theorem load_success_invariant (buf : Buffer) (t : Table)
    (h : (carica_csv buf).1 = some t) :
    List.Sorted rowLE t.rows ∧ 2 ≤ t.rows.length := by
  cases buf with
  | undecodable msg => simp [carica_csv] at h
  | text lines =>
    cases hl : loadE lines with
    | error e => simp [carica_csv, hl] at h
    | ok t' =>
      simp only [carica_csv, hl, Option.some.injEq] at h
      obtain ⟨names, rows, _, hlen, ht⟩ := loadE_ok_shape lines t' hl
      subst h; subst ht
      refine ⟨List.sorted_insertionSort rowLE rows, ?_⟩
      rw [List.length_insertionSort]
      exact hlen

/-- C4: an input whose date/price coercion and cleanup leave exactly one
valid record is rejected with `"fewer than 2 valid rows"`, and one leaving
exactly two valid records is accepted. -/
theorem two_valid_rows_boundary (buf : Buffer) (names : List String)
    (rows : List Row) (h : parsedOf buf = .ok (names, rows)) :
    (rows.length = 1 → carica_csv buf = (none, some "fewer than 2 valid rows")) ∧
    (rows.length = 2 → ∃ t, carica_csv buf = (some t, none)) := by
  cases buf with
  | undecodable msg => cases h
  | text lines =>
    replace h : parseStage lines = .ok (names, rows) := h
    constructor
    · intro h1
      have he : loadE lines = .error "fewer than 2 valid rows" := by
        unfold loadE
        rw [h]
        show (if rows.length < 2 then (.error "fewer than 2 valid rows" : Except String Table)
          else .ok ⟨names, List.insertionSort rowLE rows⟩) = .error "fewer than 2 valid rows"
        rw [if_pos (by omega)]
      simp [carica_csv, he]
    · intro h2
      have ho : loadE lines = .ok ⟨names, List.insertionSort rowLE rows⟩ := by
        unfold loadE
        rw [h]
        show (if rows.length < 2 then (.error "fewer than 2 valid rows" : Except String Table)
          else .ok ⟨names, List.insertionSort rowLE rows⟩) =
          .ok ⟨names, List.insertionSort rowLE rows⟩
        rw [if_neg (by omega)]
      exact ⟨⟨names, List.insertionSort rowLE rows⟩, by simp [carica_csv, ho]⟩

/-- On the headerless parse path (a data-section start was detected), the
column names handed to the table are `assignNames` of the column count. -/
theorem parseStage_headerless_names (lines : List String) (s : Nat)
    (names : List String) (rows : List Row)
    (hss : detectStart lines = some s)
    (hp : parseStage lines = .ok (names, rows)) :
    ∃ n, names = assignNames n := by
  unfold parseStage at hp
  rw [hss] at hp
  replace hp : (match (lines.drop s).filter (fun l => !isBlank l) with
      | ([] : List String) =>
        (.error "no data found" : Except String (List String × List Row))
      | first :: others =>
        if (splitOnChar ',' first.data).length < 2 then
          .error "needs at least 2 columns"
        else .ok (assignNames (splitOnChar ',' first.data).length,
          (first :: others).filterMap rowOfLine)) = .ok (names, rows) := hp
  cases hf : (lines.drop s).filter (fun l => !isBlank l) with
  | nil => rw [hf] at hp; cases hp
  | cons first others =>
    rw [hf] at hp
    replace hp : (if (splitOnChar ',' first.data).length < 2 then
        (.error "needs at least 2 columns" : Except String (List String × List Row))
        else .ok (assignNames (splitOnChar ',' first.data).length,
          (first :: others).filterMap rowOfLine)) = .ok (names, rows) := hp
    by_cases hc : (splitOnChar ',' first.data).length < 2
    · rw [if_pos hc] at hp; cases hp
    · rw [if_neg hc] at hp
      cases hp
      exact ⟨(splitOnChar ',' first.data).length, rfl⟩

/-- C5: for every headerless CSV accepted by `load`, column names are
positional — 2 columns give `Date`,`Price`; 4 add `Performance_PCT`,
`Performance_ABS`; 6 further add `Col_4`,`Col_5`. -/
theorem headerless_column_names (lines : List String) (t : Table)
    (hs : (detectStart lines).isSome)
    (h : (carica_csv (.text lines)).1 = some t) :
    (t.cols.length = 2 → t.cols = ["Date", "Price"]) ∧
    (t.cols.length = 4 →
      t.cols = ["Date", "Price", "Performance_PCT", "Performance_ABS"]) ∧
    (t.cols.length = 6 →
      t.cols = ["Date", "Price", "Performance_PCT", "Performance_ABS",
        "Col_4", "Col_5"]) := by
  obtain ⟨s, hss⟩ := Option.isSome_iff_exists.mp hs
  cases hl : loadE lines with
  | error e => simp [carica_csv, hl] at h
  | ok t' =>
    simp only [carica_csv, hl, Option.some.injEq] at h
    obtain ⟨names, rows, hp, _, ht⟩ := loadE_ok_shape lines t' hl
    obtain ⟨n, hn⟩ := parseStage_headerless_names lines s names rows hss hp
    subst h; subst ht; subst hn
    have hcols : Table.cols ⟨assignNames n, List.insertionSort rowLE rows⟩ =
      assignNames n := rfl
    rw [hcols, length_assignNames]
    refine ⟨fun h2 => ?_, fun h4 => ?_, fun h6 => ?_⟩
    · subst h2; decide
    · subst h4; decide
    · subst h6; decide

/-- C6: `load` is deterministic — two calls on the same buffer yield
identical results (the model is a pure function of the buffer alone). -/
theorem load_deterministic (b1 b2 : Buffer) (h : b1 = b2) :
    carica_csv b1 = carica_csv b2 := congrArg carica_csv h

section ConcreteEvaluations

attribute [local semireducible] Rat.mul Rat.add Rat.inv Rat.sub

/-- C3: on the scenario input the loader finds the sentinel at index 1, takes
the data section to start at the next line, and returns the table sorted
ascending by date. -/
theorem sentinel_scenario_table :
    detectStart ["Ticker,TEST", "=== DATI STORICI ===",
      "2024-01-01,100", "2024-01-03,102", "2024-01-02,101"] = some 2 ∧
    carica_csv (.text ["Ticker,TEST", "=== DATI STORICI ===",
      "2024-01-01,100", "2024-01-03,102", "2024-01-02,101"]) =
    (some ⟨["Date", "Price"],
      [⟨⟨2024, 1, 1⟩, 100, []⟩, ⟨⟨2024, 1, 2⟩, 101, []⟩,
       ⟨⟨2024, 1, 3⟩, 102, []⟩]⟩, none) := by
  constructor
  · decide
  · decide

/-- Witness for C2 at a concrete accepted buffer. -/
theorem load_success_invariant_witness :
    List.Sorted rowLE (Table.mk ["Date", "Price"]
      [⟨⟨2024, 1, 1⟩, 100, []⟩, ⟨⟨2024, 1, 2⟩, 101, []⟩]).rows ∧
    2 ≤ (Table.mk ["Date", "Price"]
      [⟨⟨2024, 1, 1⟩, 100, []⟩, ⟨⟨2024, 1, 2⟩, 101, []⟩]).rows.length :=
  load_success_invariant (.text ["2024-01-01,100", "2024-01-02,101"])
    (Table.mk ["Date", "Price"]
      [⟨⟨2024, 1, 1⟩, 100, []⟩, ⟨⟨2024, 1, 2⟩, 101, []⟩]) (by decide)

/-- Witness for C4 at a concrete one-row buffer. -/
theorem two_valid_rows_boundary_witness :
    carica_csv (.text ["2024-01-01,100"]) =
      (none, some "fewer than 2 valid rows") :=
  (two_valid_rows_boundary (.text ["2024-01-01,100"]) ["Date", "Price"]
    [⟨⟨2024, 1, 1⟩, 100, []⟩] (by decide)).1 (by decide)

/-- Witness for C5 at a concrete two-column headerless buffer. -/
theorem headerless_column_names_witness :
    (Table.mk ["Date", "Price"]
      [⟨⟨2024, 1, 1⟩, 100, []⟩, ⟨⟨2024, 1, 2⟩, 101, []⟩]).cols =
      ["Date", "Price"] :=
  (headerless_column_names ["2024-01-01,100", "2024-01-02,101"]
    (Table.mk ["Date", "Price"]
      [⟨⟨2024, 1, 1⟩, 100, []⟩, ⟨⟨2024, 1, 2⟩, 101, []⟩])
    (by decide) (by decide)).1 (by decide)

/-- Witness for C6 at a concrete buffer. -/
theorem load_deterministic_witness :
    carica_csv (.text ["2024-01-01,100", "2024-01-02,101"]) =
    carica_csv (.text ["2024-01-01,100", "2024-01-02,101"]) :=
  load_deterministic (.text ["2024-01-01,100", "2024-01-02,101"])
    (.text ["2024-01-01,100", "2024-01-02,101"]) rfl

end ConcreteEvaluations

/-! ## C7: failure isolation in the download batches -/

/-- C7 as stated is false on the code: in the performance-analysis loop
(`main.py` 469–478) the failure of item `"A"` does not abort its sibling
`"B"`, but it is discarded by `except: pass` — the loop's result records the
failure nowhere, so failures are not "collected and reported together". -/
theorem analisi_discards_failures_counterexample :
    analisiLoop
      (fun item => if item = "A" then (Download.failure "boom" : Download Nat)
        else .success 7) ["A", "B"] = [("B", 7)] ∧
    (fun item => if item = "A" then (Download.failure "boom" : Download Nat)
      else .success 7) "A" = .failure "boom" :=
  ⟨rfl, rfl⟩

/-- C7 amended: no loop aborts the remaining items on a failure; the
dashboard/portfolio loops collect every failure in their error list (each
item contributes exactly one outcome, a stored success or a reported error),
while the performance-analysis loop still processes every remaining item but
silently drops the failures. -/
theorem batch_failures_isolated {α : Type} (fetch : String → Download α)
    (items : List String) :
    (downloadLoop fetch items).1.length + (downloadLoop fetch items).2.length
        = items.length ∧
    analisiLoop fetch items = items.filterMap
      (fun item => match fetch item with
        | .success d => some (item, d)
        | _ => none) := by
  induction items with
  | nil => exact ⟨rfl, rfl⟩
  | cons item rest ih =>
    obtain ⟨ih1, ih2⟩ := ih
    constructor
    · cases hf : fetch item <;>
        simp only [downloadLoop, hf, List.length_cons] <;> omega
    · cases hf : fetch item <;>
        simp only [analisiLoop, hf, List.filterMap_cons] <;> simp [ih2]

/-! ## C9: the portfolio series starts at the invested amount -/

/-- `normCol` preserves the series length. -/
theorem length_normCol (c : List ℚ) : (normCol c).length = c.length := by
  cases c <;> simp [normCol]

/-- A nonempty column with nonzero first price normalizes to `100` at row
zero. -/
theorem headD_normCol (c : List ℚ) (hne : c ≠ []) (h0 : c.headD 0 ≠ 0) :
    (normCol c).headD 0 = 100 := by
  cases c with
  | nil => exact absurd rfl hne
  | cons x t =>
    simp only [normCol, List.map_cons, List.headD_cons] at *
    rw [div_self h0, one_mul]

/-- `addSeries` truncates to the shorter operand. -/
theorem length_addSeries (a b : List ℚ) :
    (addSeries a b).length = min a.length b.length := by
  simp [addSeries]

/-- The weighted-sum fold keeps the common series length. -/
theorem length_weighted_fold (pairs : List (List ℚ × ℚ)) (n : Nat)
    (hl : ∀ p ∈ pairs, p.1.length = n) :
    (pairs.foldr (fun cw acc => addSeries (cw.1.map (fun v => v * cw.2)) acc)
      (List.replicate n 0)).length = n := by
  induction pairs with
  | nil => simp
  | cons p ps ih =>
    have hp := hl p (List.mem_cons_self p ps)
    have ihl := ih (fun q hq => hl q (List.mem_cons_of_mem p hq))
    simp only [List.foldr_cons, length_addSeries, List.length_map, hp, ihl,
      Nat.min_self]

/-- Row zero of the weighted-sum fold is the weighted sum of the columns'
row-zero entries. -/
theorem headD_weighted_fold (pairs : List (List ℚ × ℚ)) (n : Nat) (hn : 0 < n)
    (hl : ∀ p ∈ pairs, p.1.length = n) :
    (pairs.foldr (fun cw acc => addSeries (cw.1.map (fun v => v * cw.2)) acc)
      (List.replicate n 0)).headD 0 =
    (pairs.map (fun p => p.1.headD 0 * p.2)).sum := by
  induction pairs with
  | nil =>
    simp only [List.foldr_nil, List.map_nil, List.sum_nil]
    cases n with
    | zero => exact absurd hn (by omega)
    | succ m => simp [List.replicate_succ]
  | cons p ps ih =>
    have hp := hl p (List.mem_cons_self p ps)
    have hps := fun q hq => hl q (List.mem_cons_of_mem p hq)
    have ihh := ih hps
    have hlen := length_weighted_fold ps n hps
    simp only [List.foldr_cons, List.map_cons, List.sum_cons]
    cases hc : p.1 with
    | nil => rw [hc] at hp; simp at hp; omega
    | cons x xs =>
      cases hacc : ps.foldr
          (fun cw acc => addSeries (cw.1.map (fun v => v * cw.2)) acc)
          (List.replicate n 0) with
      | nil => rw [hacc] at hlen; simp at hlen; omega
      | cons y ys =>
        rw [hacc] at ihh
        simp only [List.headD_cons] at ihh
        simp only [addSeries, List.map_cons, List.zipWith_cons_cons,
          List.headD_cons, hc, ihh]

/-- Row-zero weighted sum when every column's row zero equals `100`. -/
theorem sum_zip_row_zero (as : List (List ℚ)) (bs : List ℚ)
    (hlen : as.length = bs.length) (h100 : ∀ a ∈ as, a.headD 0 = 100) :
    ((List.zip as bs).map (fun p => p.1.headD 0 * p.2)).sum = 100 * bs.sum := by
  induction as generalizing bs with
  | nil =>
    cases bs with
    | nil => simp
    | cons b bs => simp at hlen
  | cons a as ih =>
    cases bs with
    | nil => simp at hlen
    | cons b bs =>
      simp only [List.zip_cons_cons, List.map_cons, List.sum_cons,
        List.sum_cons, List.length_cons] at *
      rw [h100 a (List.mem_cons_self a as),
        ih bs (by omega) (fun x hx => h100 x (List.mem_cons_of_mem a hx))]
      ring

/-- One fractional weight per integer percentage. -/
theorem length_pesiOf (pesos : List ℕ) : (pesiOf pesos).length = pesos.length := by
  simp [pesiOf]

/-- The fractional slider weights sum to the integer percentages divided by
`100`. -/
theorem pesiOf_sum (pesos : List ℕ) :
    (pesiOf pesos).sum = (pesos.sum : ℚ) / 100 := by
  induction pesos with
  | nil => simp [pesiOf]
  | cons p ps ih =>
    rw [pesiOf, List.map_cons, List.sum_cons, ← pesiOf, ih, List.sum_cons]
    push_cast
    ring

/-- C9: with integer slider percentages summing to `100`, a nonempty aligned
price table whose first-row prices are nonzero (so that base-100
normalization makes every column equal `100` at row zero, as the claim
assumes), the euro-valued portfolio series equals the initial investment at
its first date. -/
theorem portfolio_starts_at_investment (cols : List (List ℚ)) (pesos : List ℕ)
    (investimento : ℚ) (n : Nat) (hn : 0 < n)
    (hlen : ∀ c ∈ cols, c.length = n)
    (hfst : ∀ c ∈ cols, c.headD 0 ≠ 0)
    (hcount : cols.length = pesos.length)
    (hsum : pesos.sum = 100) :
    (portfolio_euro cols (pesiOf pesos) investimento).headD 0 = investimento := by
  have hpairs : ∀ p ∈ List.zip (cols.map normCol) (pesiOf pesos), p.1.length = n := by
    intro p hp
    have h1 : p.1 ∈ cols.map normCol := List.of_mem_zip hp |>.1
    obtain ⟨c, hc, hceq⟩ := List.mem_map.mp h1
    rw [← hceq, length_normCol]
    exact hlen c hc
  have hvlen : (portfolio_value cols (pesiOf pesos)).length = n := by
    unfold portfolio_value
    have hhead : (cols.headD []).length = n := by
      cases cols with
      | nil =>
        exfalso
        cases pesos with
        | nil => simp at hsum
        | cons p ps => simp at hcount
      | cons c cs => exact hlen c (List.mem_cons_self c cs)
    rw [hhead]
    exact length_weighted_fold _ n hpairs
  have hvhead : (portfolio_value cols (pesiOf pesos)).headD 0 = 100 := by
    unfold portfolio_value
    have hhead : (cols.headD []).length = n := by
      cases cols with
      | nil =>
        exfalso
        cases pesos with
        | nil => simp at hsum
        | cons p ps => simp at hcount
      | cons c cs => exact hlen c (List.mem_cons_self c cs)
    rw [hhead, headD_weighted_fold _ n hn hpairs]
    rw [sum_zip_row_zero (cols.map normCol) (pesiOf pesos)
      (by rw [List.length_map, hcount, length_pesiOf])
      (by
        intro a ha
        obtain ⟨c, hc, hceq⟩ := List.mem_map.mp ha
        have hcn : c ≠ [] := by
          intro hnil
          have hln := hlen c hc
          rw [hnil] at hln
          simp at hln
          omega
        rw [← hceq]
        exact headD_normCol c hcn (hfst c hc))]
    rw [pesiOf_sum, hsum]
    norm_num
  unfold portfolio_euro
  cases hv : portfolio_value cols (pesiOf pesos) with
  | nil => rw [hv] at hvlen; simp at hvlen; omega
  | cons v vs =>
    rw [hv] at hvhead
    simp only [List.headD_cons] at hvhead
    simp only [List.map_cons, List.headD_cons, hvhead]
    ring

/-! ## C10: the Sharpe-ratio guard -/

/-- C10: the Sharpe computation never divides by zero — when the annualized
volatility is `0` the Sharpe ratio is defined to be `0`, and otherwise it is
the annualized mean return divided by the annualized volatility. -/
theorem sharpe_no_div_by_zero (ret : List ℝ) :
    (volatilita ret = 0 → sharpe ret = 0) ∧
    (volatilita ret ≠ 0 → sharpe ret = rendimento_medio ret / volatilita ret) := by
  constructor
  · intro h
    simp [sharpe, h]
  · intro h
    simp [sharpe, h]

/-- Witness for C10 on the constant returns series `[1, 1]`, whose sample
standard deviation — hence annualized volatility — is zero. -/
theorem sharpe_no_div_by_zero_witness :
    volatilita [1, 1] = 0 ∧ sharpe [1, 1] = 0 := by
  have hm : media [(1 : ℝ), 1] = 1 := by
    norm_num [media]
  have hv : volatilita [(1 : ℝ), 1] = 0 := by
    simp [volatilita, deviazione, hm]
  exact ⟨hv, (sharpe_no_div_by_zero [1, 1]).1 hv⟩

section ConcreteRatEvaluations

attribute [local semireducible] Rat.mul Rat.add Rat.inv Rat.sub

/-- Witness for C9 on a concrete two-index table. -/
theorem portfolio_starts_at_investment_witness :
    (portfolio_euro [[2, 4], [5, 5]] (pesiOf [60, 40]) 10000).headD 0
      = 10000 :=
  portfolio_starts_at_investment [[2, 4], [5, 5]] [60, 40] 10000 2
    (by decide) (by decide) (by decide) (by decide) (by decide)

end ConcreteRatEvaluations

end IndexTracker
